import Mathlib

/-!
# The gRPC service orchestrator of roadrunner-grpc (`service.go`)

A shallow embedding of `Service` and its methods.  The service is a record
that is passed explicitly; the results of the calls that leave the file
(listener, environment provider, TLS loader, proto parser, worker pool,
accept loop) are inputs; what the methods do to the outside (sockets, worker
pool, listeners, graceful stop) is recorded as an ordered list of effects.
-/

namespace GrpcService

/-- Go `error` values, identified by their message. -/
abbrev Error := String

/-- ID sets public GRPC service ID for roadrunner.Container. -/
def ID : String := "grpc"

/-! ## The part of package `reflect` that `RegisterService` uses -/

/-- Go types as `reflect.Type` sees them here: an interface type with its
methods, a pointer type, or any other type; each carries its method set. -/
inductive GoType where
  | iface (name : String) (methods : List String)
  | named (name : String) (methods : List String)
  | ptr (elem : GoType) (methods : List String)
  deriving DecidableEq, Repr

/-- The `%v` rendering of a type. -/
def GoType.format : GoType → String
  | .iface name _ => name
  | .named name _ => name
  | .ptr elem _ => "*" ++ elem.format

/-- The method set of a type. -/
def GoType.methodSet : GoType → List String
  | .iface _ ms => ms
  | .named _ ms => ms
  | .ptr _ ms => ms

/-- A non-nil interface value: its dynamic type and the identity of what it holds. -/
structure Value where
  typ : GoType
  ref : Nat
  deriving DecidableEq, Repr

/-- Go `interface{}`: `none` is the nil interface. -/
abbrev Iface := Option Value

/-- `reflect.TypeOf`: the dynamic type, nil for a nil interface. -/
def reflect.TypeOf (i : Iface) : Option GoType :=
  i.map (fun v => v.typ)

/-- `Type.Elem`: the element type of a pointer type; `none` stands for the
panic on a type that has no element type. -/
def GoType.Elem : GoType → Option GoType
  | .ptr elem _ => some elem
  | _ => none

/-- `Type.Implements`: whether the method set of `st` covers the interface
`ht`; `none` stands for the panic on a non-interface `ht`. -/
def GoType.Implements (st ht : GoType) : Option Bool :=
  match ht with
  | .iface _ ms => some (ms.all (fun m => st.methodSet.contains m))
  | _ => none

/-! ## Collaborators outside the file -/

/-- `roadrunner.ServerConfig`, reduced to its environment: the list of
`NAME=value` entries handed to the worker processes. -/
structure ServerConfig where
  env : List String
  deriving DecidableEq, Repr

/-- `ServerConfig.SetEnv`: one more entry at the end, made of the upper-cased
key, `=` and the value.  `ToUpper` is `strings.ToUpper`. -/
def ServerConfig.SetEnv (cfg : ServerConfig) (ToUpper : String → String) (k v : String) :
    ServerConfig :=
  { cfg with env := cfg.env ++ [ToUpper k ++ "=" ++ v] }

/-- How a process environment reads one entry: the name is what stands before
the first `=`, the value is what follows it; an entry without `=` sets no
variable. -/
def entrySplit (e : String) : Option (String × String) :=
  if '=' ∈ e.data then
    some (String.mk (e.data.takeWhile (fun c => c != '=')),
          String.mk ((e.data.dropWhile (fun c => c != '=')).drop 1))
  else none

/-- The value that entry `e` gives to the variable `name`, if it sets that variable. -/
def entryValue (name : String) (e : String) : Option String :=
  match entrySplit e with
  | some (n, v) => if n = name then some v else none
  | none => none

/-- The value a variable has in a worker configuration: that of the last
entry that sets it. -/
def ServerConfig.lookup (cfg : ServerConfig) (name : String) : Option String :=
  cfg.env.reverse.findSome? (entryValue name)

/-- `roadrunner.Server`: the worker pool handle, known by the configuration it was built from. -/
structure RRServer where
  cfg : ServerConfig
  deriving DecidableEq, Repr

/-- `roadrunner.NewServer`. -/
def roadrunner.NewServer (cfg : ServerConfig) : RRServer :=
  { cfg := cfg }

/-- A bound `net.Listener`. -/
structure NetListener where
  addr : String
  deriving DecidableEq, Repr

/-- TLS section of the configuration. -/
structure TLS where
  Cert : String
  Key : String
  deriving DecidableEq, Repr

/-- `Config` as `service.go` uses it.  The methods `EnableTLS` and `Listener`
are declared outside the file; their results are fields here. -/
structure Config where
  Proto : String
  TLS : TLS
  Workers : ServerConfig
  EnableTLS : Bool
  Listener : Except Error NetListener

/-- A Go `map[string]string`: entries in the order one `range` visits them, keys distinct. -/
structure EnvMap where
  entries : List (String × String)
  nodup : (entries.map Prod.fst).Nodup

/-- `env.Environment`, with the result of its `GetEnv`. -/
structure Environment where
  GetEnv : Except Error EnvMap

/-- `rpc.Service`, with the result of its `Register`. -/
structure RpcService where
  Register : String → Option Error

/-- `parser.Method`. -/
structure Method where
  Name : String
  deriving DecidableEq, Repr

/-- `parser.Service`: one parsed service descriptor. -/
structure ParsedService where
  Package : String
  Name : String
  Methods : List Method
  deriving DecidableEq, Repr

/-- `grpc.ServiceDesc`. -/
structure ServiceDesc where
  ServiceName : String
  HandlerType : Iface
  Methods : List String
  Metadata : String
  deriving DecidableEq, Repr

/-- TLS credentials loaded from a certificate and a key file. -/
structure Credentials where
  cert : String
  key : String
  deriving DecidableEq, Repr

/-- `grpc.ServerOption`. -/
inductive ServerOption where
  | Creds (c : Credentials)
  | CustomCodec (inner : String)
  | custom (id : Nat)
  deriving DecidableEq, Repr

/-- Modelled from the spec: the proxy service of `proxy.go`, which is not in
the file, as the record of what was done to it: the qualified name, the proto
file and the worker channel it was created with, and the method names of the
`RegisterMethod` calls made on it, in order. -/
structure Proxy where
  name : String
  metadata : String
  rr : Option RRServer
  methods : List String
  deriving DecidableEq, Repr

/-- Modelled from the spec: `NewProxy` of `proxy.go` "produces an empty handler set". -/
def NewProxy (name metadata : String) (rr : Option RRServer) : Proxy :=
  { name := name, metadata := metadata, rr := rr, methods := [] }

/-- Modelled from the spec: `Proxy.RegisterMethod` of `proxy.go`:
"`registerMethod(name)` adds one entry.  No two calls with the same `name`
are permitted for one instance (error)": a new name is added at the end, a
name that is already there is refused with an error and the proxy stays as
it is. -/
def Proxy.RegisterMethod (p : Proxy) (method : String) : Proxy × Option Error :=
  if method ∈ p.methods then
    (p, some ("method " ++ method ++ " is already registered"))
  else
    ({ p with methods := p.methods ++ [method] }, none)

/-- What one `RegisterService` call on the RPC server receives: a proxy `p`
together with the descriptor `p.ServiceDesc()` that `proxy.go` makes from it,
or a caller's descriptor and handler. -/
inductive Registration where
  | proxy (p : Proxy)
  | external (sd : ServiceDesc) (ss : Iface)
  deriving DecidableEq, Repr

/-- Modelled from the spec: the service name of a registration.  The
descriptor that `proxy.go` makes from a proxy carries the proxy's qualified
name; a caller's descriptor carries its `ServiceName`. -/
def Registration.name : Registration → String
  | .proxy p => p.name
  | .external sd _ => sd.ServiceName

/-- `grpc.Server`: the options it was created with and the `RegisterService` calls made on it, in order. -/
structure GrpcServer where
  opts : List ServerOption
  registered : List Registration
  deriving DecidableEq, Repr

/-- `grpc.NewServer`. -/
def grpc.NewServer (opts : List ServerOption) : GrpcServer :=
  { opts := opts, registered := [] }

/-- `grpc.Server.RegisterService`: it has no result.  A service name that is
already registered on this server makes it call `grpclog.Fatalf`, which ends
the process: `none`.  Any other call is recorded.  (The check of the handler
against `HandlerType` that the library makes first is the one lines 103-107
have already made on every entry of `s.services`.) -/
def GrpcServer.RegisterService (server : GrpcServer) (r : Registration) : Option GrpcServer :=
  if r.name ∈ server.registered.map Registration.name then none
  else some { server with registered := server.registered ++ [r] }

/-- How `createGPRCServer` ends: with a server and a nil error, with an error,
or not at all, because `RegisterService` ended the process when it was called
for `r` on `server`. -/
inductive Created where
  | ok (server : GrpcServer)
  | error (err : Error)
  | exited (server : GrpcServer) (r : Registration)
  deriving DecidableEq, Repr

/-- One statement `server.RegisterService(...)` of `createGPRCServer`; once the
process has ended nothing more happens. -/
def Created.register (c : Created) (r : Registration) : Created :=
  match c with
  | .ok server =>
    match server.RegisterService r with
    | some server => .ok server
    | none => .exited server r
  | .error err => .error err
  | .exited server r0 => .exited server r0

/-- The library functions that `Serve` reaches, with their results in one run:
`strings.ToUpper` (used by `SetEnv`), `credentials.NewServerTLSFromFile`,
`parser.File`, and what `rr.Start()` and `grpc.Serve(lis)` return (`none` for
an accept loop that does not end). -/
structure World where
  ToUpper : String → String
  NewServerTLSFromFile : String → String → Except Error Credentials
  File : String → Except Error (List ParsedService)
  Start : Option Error
  Serve : Option (Option Error)

/-! ## The service -/

/-- An event listener `func(event int, ctx interface{})`, known by its identity. -/
structure EventListener where
  id : Nat
  deriving DecidableEq, Repr

/-- Pair of a service descriptor and its implementation. -/
structure grpcService where
  sd : ServiceDesc
  handler : Iface
  deriving DecidableEq, Repr

/-- Service manages set of GPRC services, options and connections.
`mu` is true while the mutex is held. -/
structure Service where
  cfg : Config
  env : Option Environment
  list : List EventListener
  opts : List ServerOption
  services : List grpcService
  mu : Bool
  rr : Option RRServer
  grpc : Option GrpcServer

/-- What a method does to the outside, in the order it happens. -/
inductive Effect where
  | bound (lis : NetListener)
  | closed (lis : NetListener)
  | rrListen
  | rrStart
  | rrStop
  | grpcServe (srv : GrpcServer) (lis : NetListener)
  | gracefulStop (srv : GrpcServer)
  | notify (l : EventListener) (event : Int) (ctx : Iface)
  | stop
  deriving DecidableEq, Repr

/-- How a call ends: it returns a value, it waits for ever on `s.mu.Lock()`,
it stays in the accept loop, it panics, or the process is ended under it by
`grpclog.Fatalf`.  Each carries the service as the call left it and the
effects so far. -/
inductive Outcome (α : Type) where
  | returned (val : α) (s : Service) (trace : List Effect)
  | deadlock (s : Service) (trace : List Effect)
  | serving (s : Service) (trace : List Effect)
  | panicked (s : Service) (trace : List Effect)
  | exited (s : Service) (trace : List Effect)

/-- The service as the call left it. -/
def Outcome.state {α : Type} : Outcome α → Service
  | .returned _ s _ => s
  | .deadlock s _ => s
  | .serving s _ => s
  | .panicked s _ => s
  | .exited s _ => s

/-- The effects of the call. -/
def Outcome.trace {α : Type} : Outcome α → List Effect
  | .returned _ _ tr => tr
  | .deadlock _ tr => tr
  | .serving _ tr => tr
  | .panicked _ tr => tr
  | .exited _ tr => tr

/-- Whether the call came back to its caller. -/
def Outcome.isReturned {α : Type} : Outcome α → Bool
  | .returned _ _ _ => true
  | _ => false

/-- The same outcome, reached after the effects `pre`. -/
def Outcome.after {α : Type} (pre : List Effect) : Outcome α → Outcome α
  | .returned v s tr => .returned v s (pre ++ tr)
  | .deadlock s tr => .deadlock s (pre ++ tr)
  | .serving s tr => .serving s (pre ++ tr)
  | .panicked s tr => .panicked s (pre ++ tr)
  | .exited s tr => .exited s (pre ++ tr)

/-- Init service. -/
def Service.Init (s : Service) (cfg : Config) (r : Option RpcService) (e : Option Environment) :
    (Bool × Option Error) × Service :=
  let s := { s with cfg := cfg }
  let s := { s with env := e }
  match r with
  | some r =>
    match r.Register ID with
    | some err => ((false, some err), s)
    | none => ((true, none), s)
  | none => ((true, none), s)

/-- Server options. -/
def Service.serverOptions (w : World) (s : Service) : Except Error (List ServerOption) :=
  let opts : List ServerOption := []
  if s.cfg.EnableTLS then
    match w.NewServerTLSFromFile s.cfg.TLS.Cert s.cfg.TLS.Key with
    | .error err => .error err
    | .ok creds =>
      let opts := opts ++ [ServerOption.Creds creds]
      let opts := opts ++ s.opts
      .ok (opts ++ [ServerOption.CustomCodec "proto"])
  else
    let opts := opts ++ s.opts
    .ok (opts ++ [ServerOption.CustomCodec "proto"])

/-- New configured GRPC server. -/
def Service.createGPRCServer (w : World) (s : Service) : Created :=
  match s.serverOptions w with
  | .error err => .error err
  | .ok opts =>
    let server := Created.ok (grpc.NewServer opts)
    -- php proxy services
    match w.File s.cfg.Proto with
    | .error err => .error err
    | .ok services =>
      let server := services.foldl (fun server service =>
        let p := NewProxy (service.Package ++ "." ++ service.Name) s.cfg.Proto s.rr
        let p := service.Methods.foldl (fun p m => (p.RegisterMethod m.Name).1) p
        server.register (Registration.proxy p)) server
      -- external services
      let server := s.services.foldl (fun server gs =>
        server.register (Registration.external gs.sd gs.handler)) server
      server

/-- Stop the service. -/
def Service.Stop (s : Service) : Outcome Unit :=
  if s.mu then .deadlock s [] else
  let s := { s with mu := true }
  match s.grpc with
  | none => .returned () { s with mu := false } []
  | some srv => .returned () { s with mu := false } [Effect.gracefulStop srv]

/-- Serve GRPC grpc. -/
def Service.Serve (w : World) (s : Service) : Outcome (Option Error) :=
  if s.mu then .deadlock s [] else
  let s := { s with mu := true }
  match s.cfg.Listener with
  | .error err => .returned (some err) s []
  | .ok lis =>
    let merged : Except Error Service :=
      match s.env with
      | none => .ok s
      | some e =>
        match e.GetEnv with
        | .error err => .error err
        | .ok values =>
          let s := values.entries.foldl (fun s kv =>
            { s with cfg := { s.cfg with Workers := s.cfg.Workers.SetEnv w.ToUpper kv.1 kv.2 } }) s
          .ok { s with cfg :=
                  { s.cfg with Workers := s.cfg.Workers.SetEnv w.ToUpper "RR_GRPC" "true" } }
    match merged with
    | .error err => .returned (some err) s [Effect.bound lis]
    | .ok s =>
      let s := { s with rr := some (roadrunner.NewServer s.cfg.Workers) }
      match s.createGPRCServer w with
      | .error err =>
        .returned (some err) { s with grpc := none } [Effect.bound lis, Effect.rrListen]
      | .exited _ _ =>
        .exited s [Effect.bound lis, Effect.rrListen]
      | .ok srv =>
        let s := { s with grpc := some srv }
        let s := { s with mu := false }
        match w.Start with
        | some err =>
          .returned (some err) s [Effect.bound lis, Effect.rrListen, Effect.rrStart]
        | none =>
          match w.Serve with
          | none =>
            .serving s [Effect.bound lis, Effect.rrListen, Effect.rrStart, Effect.grpcServe srv lis]
          | some r =>
            .returned r s [Effect.bound lis, Effect.rrListen, Effect.rrStart,
              Effect.grpcServe srv lis, Effect.closed lis, Effect.rrStop]

/-- RegisterService registers a service and its implementation to the gRPC
server. This must be called before invoking Serve. -/
def Service.RegisterService (s : Service) (sd : ServiceDesc) (ss : Iface) : Outcome (Option Error) :=
  match reflect.TypeOf sd.HandlerType with
  | none => .panicked s []
  | some t =>
    match t.Elem with
    | none => .panicked s []
    | some ht =>
      match reflect.TypeOf ss with
      | none => .panicked s []
      | some st =>
        match st.Implements ht with
        | none => .panicked s []
        | some false =>
          .returned (some ("grpc: Server.RegisterService found the handler of type " ++ st.format
            ++ " that does not satisfy " ++ ht.format)) s []
        | some true =>
          .returned none { s with services := s.services ++ [{ sd := sd, handler := ss }] } []

/-- AddOption adds new GRPC server option. Codec and TLS options are controlled by service internally. -/
def Service.AddOption (s : Service) (opt : ServerOption) : Service :=
  { s with opts := s.opts ++ [opt] }

/-- AddListener attaches grpc event watcher. -/
def Service.AddListener (s : Service) (l : EventListener) : Service :=
  { s with list := s.list ++ [l] }

/-- Throw handles service, grpc and pool events.  `EventServerFailure` is the
constant of package roadrunner, declared outside the file. -/
def Service.throw (EventServerFailure : Int) (s : Service) (event : Int) (ctx : Iface) : Outcome Unit :=
  let notified := s.list.foldl (fun tr l => tr ++ [Effect.notify l event ctx]) []
  if event = EventServerFailure then
    -- underlying rr grpc is dead
    (s.Stop).after (notified ++ [Effect.stop])
  else
    .returned () s notified

/-! ## Closed forms used in the statements -/

/-- The proxy named `Package.Name` that carries the method names of the descriptor. -/
def proxyOf (s : Service) (d : ParsedService) : Proxy :=
  { name := d.Package ++ "." ++ d.Name, metadata := s.cfg.Proto, rr := s.rr,
    methods := d.Methods.map (fun m => m.Name) }

/-- The proxy that the loop body of `createGPRCServer` builds for one parsed descriptor. -/
def Service.buildProxy (s : Service) (d : ParsedService) : Proxy :=
  d.Methods.foldl (fun p m => (p.RegisterMethod m.Name).1)
    (NewProxy (d.Package ++ "." ++ d.Name) s.cfg.Proto s.rr)

/-- The registrations that `createGPRCServer` attempts, in call order: one
proxy per descriptor, then the external services. -/
def Service.registrations (s : Service) (descs : List ParsedService) : List Registration :=
  descs.map (fun d => Registration.proxy (s.buildProxy d))
    ++ s.services.map (fun gs => Registration.external gs.sd gs.handler)

/-- The service names that `createGPRCServer` passes to `RegisterService`, in
call order: the qualified names of the descriptors, then the names of the
external services. -/
def Service.registeredNames (s : Service) (descs : List ParsedService) : List String :=
  descs.map (fun d => d.Package ++ "." ++ d.Name) ++ s.services.map (fun gs => gs.sd.ServiceName)

/-- The worker configuration that the environment step of `Serve` leaves: with
no provider it is untouched, with a provider it gains one entry per pair of
the provider and then the marker entry. -/
def Service.mergedWorkers (s : Service) (w : World) : Except Error ServerConfig :=
  match s.env with
  | none => .ok s.cfg.Workers
  | some e =>
    match e.GetEnv with
    | .error err => .error err
    | .ok values =>
      .ok { env := s.cfg.Workers.env
              ++ values.entries.map (fun kv => w.ToUpper kv.1 ++ "=" ++ kv.2)
              ++ [w.ToUpper "RR_GRPC" ++ "=" ++ "true"] }

/-- The service at the moment `Serve` calls `createGPRCServer`: mutex held,
worker configuration `wk`, worker pool handle built from it. -/
def Service.prepared (s : Service) (wk : ServerConfig) : Service :=
  { s with mu := true, cfg := { s.cfg with Workers := wk }, rr := some (roadrunner.NewServer wk) }

/-- Run `f` on the service that `o` returned; an outcome that did not return stays. -/
def Outcome.andThen {α β : Type} (o : Outcome α) (f : Service → Outcome β) : Outcome β :=
  match o with
  | .returned _ s tr => (f s).after tr
  | .deadlock s tr => .deadlock s tr
  | .serving s tr => .serving s tr
  | .panicked s tr => .panicked s tr
  | .exited s tr => .exited s tr

/-- `Stop` called `n` times in a row. -/
def Service.StopTimes : Nat → Service → Outcome Unit
  | 0, s => .returned () s []
  | n + 1, s => (s.Stop).andThen (fun s => Service.StopTimes n s)

/-! ## Sample inputs -/

/-- A configuration without TLS whose listener binds. -/
def sampleConfig : Config :=
  { Proto := "service.proto", TLS := { Cert := "", Key := "" }, Workers := { env := [] },
    EnableTLS := false, Listener := .ok { addr := "tcp://:9001" } }

/-- A service after `Init` with `sampleConfig` and no environment provider. -/
def sampleService : Service :=
  { cfg := sampleConfig, env := none, list := [], opts := [], services := [], mu := false,
    rr := none, grpc := none }

/-- The interface a `Health` handler has to implement. -/
def healthServer : GoType := .iface "HealthServer" ["Check", "Watch"]

/-- A descriptor of an external `Health` service. -/
def healthDesc : ServiceDesc :=
  { ServiceName := "grpc.health.v1.Health",
    HandlerType := some { typ := .ptr healthServer [], ref := 0 },
    Methods := ["Check", "Watch"], Metadata := "health.proto" }

/-- A handler implementing `HealthServer`. -/
def healthImpl : Value :=
  { typ := .ptr (.named "healthImpl" []) ["Check", "Watch", "Shutdown"], ref := 1 }

/-- A proto file declaring `pkg.Greeter` with `Hello` and `Bye`, and `pkg.Echo` with `Ping`. -/
def greeterDescs : List ParsedService :=
  [ { Package := "pkg", Name := "Greeter", Methods := [{ Name := "Hello" }, { Name := "Bye" }] },
    { Package := "pkg", Name := "Echo", Methods := [{ Name := "Ping" }] } ]

/-- A proto parse in which `pkg.Greeter` comes out twice. -/
def duplicateDescs : List ParsedService :=
  [ { Package := "pkg", Name := "Greeter", Methods := [{ Name := "Hello" }] },
    { Package := "pkg", Name := "Greeter", Methods := [{ Name := "Bye" }] } ]

/-- Upper-casing of the letters `a` to `z`; on such strings it is `strings.ToUpper`. -/
def asciiUpper (s : String) : String :=
  String.mk (s.data.map Char.toUpper)

/-- Every library call succeeds; the accept loop ends without error. -/
def sampleWorld : World :=
  { ToUpper := asciiUpper,
    NewServerTLSFromFile := fun cert key => .ok { cert := cert, key := key },
    File := fun _ => .ok greeterDescs,
    Start := none,
    Serve := some none }

/-- The proto parse succeeds with `duplicateDescs`. -/
def duplicateWorld : World :=
  { sampleWorld with File := fun _ => .ok duplicateDescs }

/-- A descriptor of an external service that takes the name of the proxy `pkg.Greeter`. -/
def clashDesc : ServiceDesc :=
  { healthDesc with ServiceName := "pkg.Greeter" }

/-- A service on which an external `pkg.Greeter` was registered. -/
def clashService : Service :=
  { sampleService with services := [{ sd := clashDesc, handler := some healthImpl }] }

/-- A proto parse in which `pkg.Greeter` declares `Hello` twice. -/
def repeatedMethodDescs : List ParsedService :=
  [ { Package := "pkg", Name := "Greeter", Methods := [{ Name := "Hello" }, { Name := "Hello" }] } ]

/-- The proto parse succeeds with `repeatedMethodDescs`. -/
def repeatedMethodWorld : World :=
  { sampleWorld with File := fun _ => .ok repeatedMethodDescs }

/-- The proto parse fails. -/
def parseFailWorld : World :=
  { sampleWorld with File := fun _ => .error "service.proto:3: syntax error" }

/-- A service whose listener cannot be bound. -/
def listenFailService : Service :=
  { sampleService with
    cfg := { sampleConfig with Listener := .error "listen tcp :9001: bind: address already in use" } }

/-- The service that `Serve` leaves when the listener cannot be bound. -/
def afterListenFailure : Service :=
  (listenFailService.Serve sampleWorld).state

/-- A service whose environment provider fails. -/
def envFailService : Service :=
  { sampleService with env := some { GetEnv := .error "env: provider unavailable" } }

/-- A service with TLS configured. -/
def tlsService : Service :=
  { sampleService with
    cfg := { sampleConfig with EnableTLS := true, TLS := { Cert := "missing.crt", Key := "server.key" } } }

/-- The certificate file cannot be read. -/
def tlsFailWorld : World :=
  { sampleWorld with
    NewServerTLSFromFile := fun _ _ => .error "open missing.crt: no such file or directory" }

/-- The worker pool does not start. -/
def startFailWorld : World :=
  { sampleWorld with Start := some "unable to start worker pool" }

/-- A provider that supplies `APP_ENV` and its own value for `RR_GRPC`. -/
def sampleEnv : Environment :=
  { GetEnv := .ok { entries := [("app_env", "prod"), ("RR_GRPC", "false")], nodup := by decide } }

/-- A service with the provider `sampleEnv` and one variable set before. -/
def envService : Service :=
  { sampleService with
    cfg := { sampleConfig with Workers := { env := ["APP_ENV=dev"] } },
    env := some sampleEnv }

/-- The server that `Serve` builds for `sampleService` in `sampleWorld`. -/
def sampleServer : GrpcServer :=
  { opts := [ServerOption.CustomCodec "proto"],
    registered := greeterDescs.map (fun d =>
      Registration.proxy (proxyOf (sampleService.prepared { env := [] }) d)) }

/-- The listener was bound and nothing closed it. -/
def leftOpen (trace : List Effect) (lis : NetListener) : Prop :=
  Effect.bound lis ∈ trace ∧ Effect.closed lis ∉ trace

/-! ## Lemmas -/

theorem RegisterMethod_name (p : Proxy) (m : String) : (p.RegisterMethod m).1.name = p.name := by
  unfold Proxy.RegisterMethod
  split <;> rfl

theorem foldl_RegisterMethod_name (ms : List Method) (p : Proxy) :
    (ms.foldl (fun p m => (p.RegisterMethod m.Name).1) p).name = p.name := by
  induction ms generalizing p with
  | nil => rfl
  | cons m ms ih => rw [List.foldl_cons, ih, RegisterMethod_name]

theorem buildProxy_name (s : Service) (d : ParsedService) :
    (s.buildProxy d).name = d.Package ++ "." ++ d.Name := by
  unfold Service.buildProxy
  rw [foldl_RegisterMethod_name]
  rfl

theorem foldl_RegisterMethod (ms : List Method) (p : Proxy)
    (h : (p.methods ++ ms.map (fun m => m.Name)).Nodup) :
    ms.foldl (fun p m => (p.RegisterMethod m.Name).1) p
      = { p with methods := p.methods ++ ms.map (fun m => m.Name) } := by
  induction ms generalizing p with
  | nil => simp
  | cons m ms ih =>
    rw [List.map_cons] at h
    have hm : m.Name ∉ p.methods := by
      intro hin
      have h2 := (List.nodup_middle.mp h)
      rw [List.nodup_cons] at h2
      exact h2.1 (List.mem_append_left _ hin)
    have hstep : (p.RegisterMethod m.Name).1 = { p with methods := p.methods ++ [m.Name] } := by
      simp [Proxy.RegisterMethod, hm]
    rw [List.foldl_cons, hstep, ih]
    · simp [List.append_assoc]
    · simpa [List.append_assoc] using h

theorem buildProxy_eq (s : Service) (d : ParsedService)
    (h : (d.Methods.map (fun m => m.Name)).Nodup) :
    s.buildProxy d = proxyOf s d := by
  unfold Service.buildProxy
  rw [foldl_RegisterMethod]
  · simp [NewProxy, proxyOf]
  · simpa [NewProxy] using h

theorem registrations_names (s : Service) (descs : List ParsedService) :
    (s.registrations descs).map Registration.name = s.registeredNames descs := by
  simp [Service.registrations, Service.registeredNames, Registration.name, buildProxy_name,
    Function.comp_def]

theorem foldl_register_exited (xs : List Registration) (server : GrpcServer) (r : Registration) :
    xs.foldl Created.register (.exited server r) = .exited server r := by
  induction xs with
  | nil => rfl
  | cons x xs ih => rw [List.foldl_cons]; exact ih

theorem foldl_register_ok (xs : List Registration) (server : GrpcServer)
    (h : (server.registered.map Registration.name ++ xs.map Registration.name).Nodup) :
    xs.foldl Created.register (.ok server)
      = .ok { server with registered := server.registered ++ xs } := by
  induction xs generalizing server with
  | nil => simp
  | cons x xs ih =>
    rw [List.map_cons] at h
    have hx : x.name ∉ server.registered.map Registration.name := by
      intro hin
      have h2 := List.nodup_middle.mp h
      rw [List.nodup_cons] at h2
      exact h2.1 (List.mem_append_left _ hin)
    have hstep : Created.register (.ok server) x
        = .ok { server with registered := server.registered ++ [x] } := by
      simp [Created.register, GrpcServer.RegisterService, hx]
    rw [List.foldl_cons, hstep, ih]
    · simp [List.append_assoc]
    · simpa [List.append_assoc] using h

theorem foldl_register_dup (xs : List Registration) (server : GrpcServer)
    (hs : (server.registered.map Registration.name).Nodup)
    (h : ¬ (server.registered.map Registration.name ++ xs.map Registration.name).Nodup) :
    ∃ srv r, xs.foldl Created.register (.ok server) = .exited srv r
      ∧ (srv.registered.map Registration.name).Nodup
      ∧ r.name ∈ srv.registered.map Registration.name := by
  induction xs generalizing server with
  | nil => simp [hs] at h
  | cons x xs ih =>
    by_cases hx : x.name ∈ server.registered.map Registration.name
    · refine ⟨server, x, ?_, hs, hx⟩
      have hstep : Created.register (.ok server) x = .exited server x := by
        simp only [Created.register, GrpcServer.RegisterService, hx, if_true]
      rw [List.foldl_cons, hstep, foldl_register_exited]
    · have hstep : Created.register (.ok server) x
          = .ok { server with registered := server.registered ++ [x] } := by
        simp only [Created.register, GrpcServer.RegisterService, hx, if_false]
      rw [List.foldl_cons, hstep]
      apply ih
      · simp only [List.map_append, List.map_cons, List.map_nil]
        rw [List.nodup_append]
        refine ⟨hs, List.nodup_singleton _, ?_⟩
        intro a ha hb
        rw [List.mem_singleton] at hb
        exact hx (hb ▸ ha)
      · simpa [List.append_assoc] using h

theorem createGPRCServer_eq (w : World) (s : Service) (opts : List ServerOption)
    (descs : List ParsedService)
    (hopts : s.serverOptions w = .ok opts) (hparse : w.File s.cfg.Proto = .ok descs) :
    s.createGPRCServer w
      = (s.registrations descs).foldl Created.register (.ok (grpc.NewServer opts)) := by
  unfold Service.createGPRCServer Service.registrations
  simp only [hopts, hparse]
  rw [List.foldl_append, List.foldl_map, List.foldl_map]
  rfl

theorem createGPRCServer_ok (w : World) (s : Service) (opts : List ServerOption)
    (descs : List ParsedService)
    (hopts : s.serverOptions w = .ok opts) (hparse : w.File s.cfg.Proto = .ok descs)
    (hnames : (s.registeredNames descs).Nodup) :
    s.createGPRCServer w = .ok { opts := opts, registered := s.registrations descs } := by
  rw [createGPRCServer_eq w s opts descs hopts hparse, foldl_register_ok]
  · simp [grpc.NewServer]
  · simpa [grpc.NewServer, registrations_names] using hnames

theorem createGPRCServer_dup (w : World) (s : Service) (opts : List ServerOption)
    (descs : List ParsedService)
    (hopts : s.serverOptions w = .ok opts) (hparse : w.File s.cfg.Proto = .ok descs)
    (hnames : ¬ (s.registeredNames descs).Nodup) :
    ∃ srv r, s.createGPRCServer w = .exited srv r
      ∧ (srv.registered.map Registration.name).Nodup
      ∧ r.name ∈ srv.registered.map Registration.name := by
  rw [createGPRCServer_eq w s opts descs hopts hparse]
  apply foldl_register_dup
  · simp [grpc.NewServer]
  · simpa [grpc.NewServer, registrations_names] using hnames

theorem createGPRCServer_error_iff (w : World) (s : Service) (e : Error) :
    s.createGPRCServer w = .error e ↔
      (s.serverOptions w = .error e
        ∨ ((∃ opts, s.serverOptions w = .ok opts) ∧ w.File s.cfg.Proto = .error e)) := by
  cases ho : s.serverOptions w with
  | error e1 => simp [Service.createGPRCServer, ho]
  | ok opts =>
    cases hp : w.File s.cfg.Proto with
    | error e2 => simp [Service.createGPRCServer, ho, hp]
    | ok descs =>
      by_cases hn : (s.registeredNames descs).Nodup
      · simp [createGPRCServer_ok w s opts descs ho hp hn]
      · obtain ⟨srv, r, h, _⟩ := createGPRCServer_dup w s opts descs ho hp hn
        simp [h]

theorem foldl_SetEnv (U : String → String) (values : List (String × String)) (s : Service) :
    values.foldl (fun s kv =>
        { s with cfg := { s.cfg with Workers := s.cfg.Workers.SetEnv U kv.1 kv.2 } }) s
      = { s with cfg := { s.cfg with Workers :=
            { env := s.cfg.Workers.env ++ values.map (fun kv => U kv.1 ++ "=" ++ kv.2) } } } := by
  induction values generalizing s with
  | nil => simp
  | cons kv values ih =>
    rw [List.foldl_cons, ih]
    simp [ServerConfig.SetEnv, List.append_assoc]

theorem Serve_eq (w : World) (s : Service) (hmu : s.mu = false) :
    s.Serve w =
      match s.cfg.Listener with
      | .error err => .returned (some err) { s with mu := true } []
      | .ok lis =>
        match s.mergedWorkers w with
        | .error err => .returned (some err) { s with mu := true } [Effect.bound lis]
        | .ok wk =>
          match (s.prepared wk).createGPRCServer w with
          | .error err =>
            .returned (some err) { s.prepared wk with grpc := none }
              [Effect.bound lis, Effect.rrListen]
          | .exited _ _ =>
            .exited (s.prepared wk) [Effect.bound lis, Effect.rrListen]
          | .ok srv =>
            match w.Start with
            | some err =>
              .returned (some err) { s.prepared wk with grpc := some srv, mu := false }
                [Effect.bound lis, Effect.rrListen, Effect.rrStart]
            | none =>
              match w.Serve with
              | none =>
                .serving { s.prepared wk with grpc := some srv, mu := false }
                  [Effect.bound lis, Effect.rrListen, Effect.rrStart, Effect.grpcServe srv lis]
              | some r =>
                .returned r { s.prepared wk with grpc := some srv, mu := false }
                  [Effect.bound lis, Effect.rrListen, Effect.rrStart,
                    Effect.grpcServe srv lis, Effect.closed lis, Effect.rrStop] := by
  rcases s with ⟨⟨proto, tls, workers, enableTLS, listener⟩, env, list, opts, services, mu, rr, grpc⟩
  simp only at hmu
  subst hmu
  cases listener with
  | error err => rfl
  | ok lis =>
    cases env with
    | none => rfl
    | some e =>
      rcases e with ⟨getEnv⟩
      cases getEnv with
      | error err => rfl
      | ok values =>
        simp only [Service.Serve, foldl_SetEnv, Bool.false_eq_true, if_false]
        rfl

/-! ## Claims about `createGPRCServer` -/

/-- C1, as stated, fails: with two parsed descriptors that both give
`pkg.Greeter`, `createGPRCServer` returns no server: the second
`RegisterService` call ends the process, and only the first proxy was
registered.  And for a descriptor that declares `Hello` twice, the result is
not a server whose proxy carries `Hello` twice. -/
theorem createGPRCServer_duplicate_name_exits :
    duplicateDescs.map (fun d => d.Package ++ "." ++ d.Name) = ["pkg.Greeter", "pkg.Greeter"]
    ∧ sampleService.createGPRCServer duplicateWorld
      = .exited
          { opts := [ServerOption.CustomCodec "proto"],
            registered :=
              [ Registration.proxy
                  { name := "pkg.Greeter", metadata := "service.proto", rr := none,
                    methods := ["Hello"] } ] }
          (Registration.proxy
            { name := "pkg.Greeter", metadata := "service.proto", rr := none, methods := ["Bye"] })
    ∧ sampleService.createGPRCServer repeatedMethodWorld
      ≠ .ok
          { opts := [ServerOption.CustomCodec "proto"],
            registered :=
              [ Registration.proxy
                  { name := "pkg.Greeter", metadata := "service.proto", rr := none,
                    methods := ["Hello", "Hello"] } ] } := by
  refine ⟨rfl, rfl, ?_⟩
  decide

/-- C1, amended: when option building and parsing succeed, the service names
that come up (the qualified names of the descriptors and the names of the
external services) are pairwise distinct, and no descriptor repeats a method
name, `createGPRCServer` returns a server created with those options on
which exactly these registrations were made, in this order: for each parsed
descriptor, in descriptor order, one proxy named `Package.Name` that carries
the descriptor's method names in declared order (the result of one
`RegisterMethod` call per method on a new proxy), and after them every
external service of the list, in list order. -/
theorem createGPRCServer_registers_proxies_then_external (w : World) (s : Service)
    (opts : List ServerOption) (descs : List ParsedService)
    (hopts : s.serverOptions w = .ok opts) (hparse : w.File s.cfg.Proto = .ok descs)
    (hnames : (descs.map (fun d => d.Package ++ "." ++ d.Name)
      ++ s.services.map (fun gs => gs.sd.ServiceName)).Nodup)
    (hmethods : ∀ d ∈ descs, (d.Methods.map (fun m => m.Name)).Nodup) :
    s.createGPRCServer w = .ok
      { opts := opts,
        registered :=
          descs.map (fun d =>
            Registration.proxy
              { name := d.Package ++ "." ++ d.Name, metadata := s.cfg.Proto, rr := s.rr,
                methods := d.Methods.map (fun m => m.Name) })
          ++ s.services.map (fun gs => Registration.external gs.sd gs.handler) }
    ∧ ∀ d ∈ descs,
        (d.Methods.foldl (fun p m => (p.RegisterMethod m.Name).1)
          (NewProxy (d.Package ++ "." ++ d.Name) s.cfg.Proto s.rr)).methods
          = d.Methods.map (fun m => m.Name) := by
  have hbuild : ∀ d ∈ descs, s.buildProxy d = proxyOf s d :=
    fun d hd => buildProxy_eq s d (hmethods d hd)
  refine ⟨?_, ?_⟩
  · rw [createGPRCServer_ok w s opts descs hopts hparse hnames]
    have hmap : descs.map (fun d => Registration.proxy (s.buildProxy d))
        = descs.map (fun d => Registration.proxy (proxyOf s d)) :=
      List.map_congr_left (fun d hd => by rw [hbuild d hd])
    simp only [Service.registrations, hmap]
    rfl
  · intro d hd
    have h := hbuild d hd
    unfold Service.buildProxy at h
    rw [h]
    rfl

/-- C1 amended, at `pkg.Greeter`, `pkg.Echo` and one external health service. -/
theorem createGPRCServer_registers_proxies_then_external_witness :
    ({ sampleService with
        services := [{ sd := healthDesc, handler := some healthImpl }] } : Service).createGPRCServer
      sampleWorld
      = .ok
        { opts := [ServerOption.CustomCodec "proto"],
          registered :=
            [ Registration.proxy
                { name := "pkg.Greeter", metadata := "service.proto", rr := none,
                  methods := ["Hello", "Bye"] },
              Registration.proxy
                { name := "pkg.Echo", metadata := "service.proto", rr := none,
                  methods := ["Ping"] },
              Registration.external healthDesc (some healthImpl) ] } :=
  (createGPRCServer_registers_proxies_then_external sampleWorld
    { sampleService with services := [{ sd := healthDesc, handler := some healthImpl }] }
    [ServerOption.CustomCodec "proto"] greeterDescs rfl rfl (by decide) (by decide)).1

/-- C8, as stated, fails: with two parsed descriptors that both give
`pkg.Greeter`, and with an external service named like the proxy
`pkg.Greeter`, neither `createGPRCServer` nor `Serve` returns an error:
the process is ended inside `RegisterService` and they do not return. -/
theorem createGPRCServer_duplicate_name_no_error :
    (∀ e, sampleService.createGPRCServer duplicateWorld ≠ .error e)
    ∧ sampleService.Serve duplicateWorld
      = .exited (sampleService.prepared { env := [] })
          [Effect.bound { addr := "tcp://:9001" }, Effect.rrListen]
    ∧ (sampleService.Serve duplicateWorld).isReturned = false
    ∧ clashService.registeredNames greeterDescs = ["pkg.Greeter", "pkg.Echo", "pkg.Greeter"]
    ∧ (∀ e, clashService.createGPRCServer sampleWorld ≠ .error e)
    ∧ (clashService.Serve sampleWorld).isReturned = false := by
  refine ⟨?_, rfl, rfl, rfl, ?_, rfl⟩
  · intro e h
    have h2 : sampleService.createGPRCServer duplicateWorld
        = .exited
          { opts := [ServerOption.CustomCodec "proto"],
            registered := [Registration.proxy (sampleService.buildProxy
              { Package := "pkg", Name := "Greeter", Methods := [{ Name := "Hello" }] })] }
          (Registration.proxy (sampleService.buildProxy
              { Package := "pkg", Name := "Greeter", Methods := [{ Name := "Bye" }] })) := rfl
    rw [h2] at h
    exact Created.noConfusion h
  · intro e h
    obtain ⟨srv, r, h2, _⟩ := createGPRCServer_dup sampleWorld clashService
      [ServerOption.CustomCodec "proto"] greeterDescs rfl rfl (by decide)
    rw [h2] at h
    exact Created.noConfusion h

/-- C8, amended: `createGPRCServer` compares no names itself and returns an
error exactly when option building fails or, after option building
succeeded, the proto parse fails, and the error is that step's.  When both
succeed and a service name comes up twice (among the descriptors, or between
a descriptor and an external service), `createGPRCServer` does not return:
the `RegisterService` call that brings a name again ends the process, on a
server that has every name once; and `Serve`, having bound the listener,
does not return either. -/
theorem createGPRCServer_repeated_name_ends_process (w : World) (s : Service) :
    (∀ e, s.createGPRCServer w = .error e ↔
      (s.serverOptions w = .error e
        ∨ ((∃ opts, s.serverOptions w = .ok opts) ∧ w.File s.cfg.Proto = .error e)))
    ∧ (∀ opts descs, s.serverOptions w = .ok opts → w.File s.cfg.Proto = .ok descs →
        ¬ (descs.map (fun d => d.Package ++ "." ++ d.Name)
            ++ s.services.map (fun gs => gs.sd.ServiceName)).Nodup →
        (∃ srv r, s.createGPRCServer w = .exited srv r
          ∧ (srv.registered.map Registration.name).Nodup
          ∧ r.name ∈ srv.registered.map Registration.name)
        ∧ (∀ lis wk, s.mu = false → s.cfg.Listener = .ok lis → s.mergedWorkers w = .ok wk →
            s.Serve w = .exited (s.prepared wk) [Effect.bound lis, Effect.rrListen])) := by
  refine ⟨fun e => createGPRCServer_error_iff w s e, ?_⟩
  intro opts descs ho hp hn
  refine ⟨createGPRCServer_dup w s opts descs ho hp hn, ?_⟩
  intro lis wk hmu hl hm
  obtain ⟨srv, r, h, _⟩ := createGPRCServer_dup w (s.prepared wk) opts descs ho hp hn
  rw [Serve_eq w s hmu, hl]
  simp only [hm, h]

/-- C8 amended, at the two descriptors that both give `pkg.Greeter`. -/
theorem createGPRCServer_repeated_name_ends_process_witness :
    (∃ srv r, sampleService.createGPRCServer duplicateWorld = .exited srv r
      ∧ (srv.registered.map Registration.name).Nodup
      ∧ r.name ∈ srv.registered.map Registration.name)
    ∧ (∀ lis wk, sampleService.mu = false → sampleService.cfg.Listener = .ok lis →
        sampleService.mergedWorkers duplicateWorld = .ok wk →
        sampleService.Serve duplicateWorld
          = .exited (sampleService.prepared wk) [Effect.bound lis, Effect.rrListen]) :=
  (createGPRCServer_repeated_name_ends_process duplicateWorld sampleService).2
    [ServerOption.CustomCodec "proto"] duplicateDescs rfl rfl (by decide)

/-! ## Claims about `throw`, `AddListener` and `Stop` -/

theorem foldl_AddListener (ls : List EventListener) (s : Service) :
    ls.foldl Service.AddListener s = { s with list := s.list ++ ls } := by
  induction ls generalizing s with
  | nil => simp
  | cons l ls ih =>
    rw [List.foldl_cons, ih]
    simp [Service.AddListener, List.append_assoc]

theorem foldl_notify (ls : List EventListener) (event : Int) (ctx : Iface) (pre : List Effect) :
    ls.foldl (fun tr l => tr ++ [Effect.notify l event ctx]) pre
      = pre ++ ls.map (fun l => Effect.notify l event ctx) := by
  induction ls generalizing pre with
  | nil => simp
  | cons l ls ih =>
    rw [List.foldl_cons, ih]
    simp [List.append_assoc]

theorem Stop_trace (s : Service) :
    s.Stop.trace = [] ∨ ∃ srv, s.Stop.trace = [Effect.gracefulStop srv] := by
  unfold Service.Stop
  cases hmu : s.mu with
  | true => left; rfl
  | false =>
    cases hg : s.grpc with
    | none => left; simp [hg, Outcome.trace]
    | some srv => right; exact ⟨srv, by simp [hg, Outcome.trace]⟩

theorem trace_after {α : Type} (pre : List Effect) (o : Outcome α) :
    (o.after pre).trace = pre ++ o.trace := by
  cases o <;> rfl

/-- C2: after the listeners `ls` were added with `AddListener`, in this order,
to a service that already had the listeners `s.list`, `throw event ctx` calls
every listener of `s.list ++ ls` once with `(event, ctx)`, in that order, and
nothing else happens before the last of these calls; after them it calls
`Stop` when the event is `EventServerFailure`, and returns at once leaving
the service as it was when it is any other event.  What `Stop` does contains
no call of a listener. -/
theorem throw_notifies_in_order_then_stops (EventServerFailure : Int) (s : Service)
    (ls : List EventListener) (event : Int) (ctx : Iface) :
    (ls.foldl Service.AddListener s).list = s.list ++ ls
    ∧ ((ls.foldl Service.AddListener s).throw EventServerFailure event ctx).trace
        = (s.list ++ ls).map (fun l => Effect.notify l event ctx)
          ++ (if event = EventServerFailure
              then Effect.stop :: ((ls.foldl Service.AddListener s).Stop).trace else [])
    ∧ (if event = EventServerFailure
        then (ls.foldl Service.AddListener s).throw EventServerFailure event ctx
          = ((ls.foldl Service.AddListener s).Stop).after
              ((s.list ++ ls).map (fun l => Effect.notify l event ctx) ++ [Effect.stop])
        else (ls.foldl Service.AddListener s).throw EventServerFailure event ctx
          = .returned () (ls.foldl Service.AddListener s)
              ((s.list ++ ls).map (fun l => Effect.notify l event ctx)))
    ∧ (Effect.stop ∈ ((ls.foldl Service.AddListener s).throw EventServerFailure event ctx).trace
        ↔ event = EventServerFailure)
    ∧ (∀ x ∈ ((ls.foldl Service.AddListener s).Stop).trace, ∃ srv, x = Effect.gracefulStop srv) := by
  have hlist : (ls.foldl Service.AddListener s).list = s.list ++ ls := by
    rw [foldl_AddListener]
  have hstop : ∀ x ∈ ((ls.foldl Service.AddListener s).Stop).trace,
      ∃ srv, x = Effect.gracefulStop srv := by
    intro x hx
    rcases Stop_trace (ls.foldl Service.AddListener s) with h | ⟨srv, h⟩
    · rw [h] at hx; simp at hx
    · rw [h] at hx; simp at hx; exact ⟨srv, hx⟩
  refine ⟨hlist, ?_, ?_, ?_, hstop⟩
  · unfold Service.throw
    rw [foldl_notify, hlist]
    by_cases he : event = EventServerFailure
    · simp [he, trace_after]
    · simp [he, Outcome.trace]
  · unfold Service.throw
    rw [foldl_notify, hlist]
    by_cases he : event = EventServerFailure
    · simp [he]
    · simp [he]
  · unfold Service.throw
    rw [foldl_notify, hlist]
    by_cases he : event = EventServerFailure
    · simp [he, trace_after]
    · simp only [he, if_false, Outcome.trace, List.nil_append, iff_false]
      simp

/-- C2 at two listeners and the failure event, taken to be 202: both are
called in the order they were added, then `Stop` is called; it finds no
server and requests nothing. -/
theorem throw_notifies_in_order_then_stops_witness :
    (([{ id := 1 }, { id := 2 }] : List EventListener).foldl Service.AddListener sampleService).list
      = [{ id := 1 }, { id := 2 }]
    ∧ ((([{ id := 1 }, { id := 2 }] : List EventListener).foldl Service.AddListener
          sampleService).throw 202 202 none).trace
      = [Effect.notify { id := 1 } 202 none, Effect.notify { id := 2 } 202 none, Effect.stop] :=
  ⟨(throw_notifies_in_order_then_stops 202 sampleService [{ id := 1 }, { id := 2 }] 202 none).1,
   (throw_notifies_in_order_then_stops 202 sampleService [{ id := 1 }, { id := 2 }] 202 none).2.1⟩

/-- C3, as stated, fails: after a `Serve` that ended because the listener
could not be bound, the server handle is nil (no server was built), yet
`Stop` does not return: it waits on the mutex that this `Serve` still holds. -/
theorem Stop_after_listen_failure_waits :
    (listenFailService.Serve sampleWorld).isReturned = true
    ∧ afterListenFailure.grpc = none
    ∧ afterListenFailure.Stop = .deadlock afterListenFailure []
    ∧ afterListenFailure.Stop.isReturned = false := by
  refine ⟨rfl, rfl, rfl, rfl⟩

/-- C3, amended: on a service whose server handle is nil and whose mutex is
not held, `Stop` returns, requests no graceful stop and leaves every field as
it was, the mutex free again; so does any number of `Stop` calls in a row. -/
theorem Stop_without_server_is_noop (s : Service) (hg : s.grpc = none) (hmu : s.mu = false)
    (n : Nat) :
    s.Stop = .returned () s [] ∧ Service.StopTimes n s = .returned () s [] := by
  have h1 : s.Stop = .returned () s [] := by
    rcases s with ⟨cfg, env, list, opts, services, mu, rr, grpc⟩
    simp only at hg hmu
    subst hg hmu
    rfl
  refine ⟨h1, ?_⟩
  induction n with
  | zero => rfl
  | succ n ih =>
    simp only [Service.StopTimes, h1, Outcome.andThen, ih]
    rfl

/-- C3 amended, at a service on which `Serve` never ran, with three calls. -/
theorem Stop_without_server_is_noop_witness :
    sampleService.Stop = .returned () sampleService []
    ∧ Service.StopTimes 3 sampleService = .returned () sampleService [] :=
  Stop_without_server_is_noop sampleService rfl rfl 3

/-! ## Claims about `Serve` -/

theorem serverOptions_prepared (w : World) (s : Service) (wk : ServerConfig) :
    (s.prepared wk).serverOptions w = s.serverOptions w := rfl

theorem createGPRCServer_prepared_error (w : World) (s : Service) (wk : ServerConfig) (e : Error)
    (h : s.serverOptions w = .error e
      ∨ ((∃ opts, s.serverOptions w = .ok opts) ∧ w.File s.cfg.Proto = .error e)) :
    (s.prepared wk).createGPRCServer w = .error e :=
  (createGPRCServer_error_iff w (s.prepared wk) e).mpr h

theorem serverOptions_tls_error (w : World) (s : Service) (e : Error)
    (htls : s.cfg.EnableTLS = true)
    (hload : w.NewServerTLSFromFile s.cfg.TLS.Cert s.cfg.TLS.Key = .error e) :
    s.serverOptions w = .error e := by
  simp [Service.serverOptions, htls, hload]

/-- C4, as stated, fails: when the TLS credentials cannot be loaded `Serve`
returns that error, but the worker handle `rr`, nil before, now holds the
newly built worker server; and when the worker pool does not start, the
server handle `grpc`, nil before, holds the newly built server. -/
theorem Serve_failure_changes_handles :
    tlsService.rr = none
    ∧ (tlsService.Serve tlsFailWorld).isReturned = true
    ∧ (tlsService.Serve tlsFailWorld).state.rr = some (roadrunner.NewServer { env := [] })
    ∧ sampleService.grpc = none
    ∧ (sampleService.Serve startFailWorld).isReturned = true
    ∧ (sampleService.Serve startFailWorld).state.grpc = some sampleServer := by
  refine ⟨rfl, rfl, rfl, rfl, rfl, rfl⟩

/-- C4, amended: on a service whose mutex is free, `Serve` returns the error
of the startup step that fails.  When that step is the listener resolution or
the environment lookup, `rr`, `grpc` and the worker configuration are what
they were (only the mutex differs).  When it is the TLS credential load or
the proto parse, the worker configuration is the merged one, `rr` holds the
worker server built from it and `grpc` is nil.  When it is the worker pool
start, the worker configuration is the merged one, `rr` holds the worker
server built from it and `grpc` holds the server that `createGPRCServer`
returned. -/
theorem Serve_failure_state (w : World) (s : Service) (hmu : s.mu = false) :
    (∀ e, s.cfg.Listener = .error e →
      s.Serve w = .returned (some e) { s with mu := true } [])
    ∧ (∀ lis env e, s.cfg.Listener = .ok lis → s.env = some env → env.GetEnv = .error e →
      s.Serve w = .returned (some e) { s with mu := true } [Effect.bound lis])
    ∧ (∀ lis wk e, s.cfg.Listener = .ok lis → s.mergedWorkers w = .ok wk →
      (s.serverOptions w = .error e
        ∨ ((∃ opts, s.serverOptions w = .ok opts) ∧ w.File s.cfg.Proto = .error e)) →
      s.Serve w = .returned (some e)
        { s with mu := true, cfg := { s.cfg with Workers := wk },
                 rr := some (roadrunner.NewServer wk), grpc := none }
        [Effect.bound lis, Effect.rrListen])
    ∧ (∀ lis wk srv e, s.cfg.Listener = .ok lis → s.mergedWorkers w = .ok wk →
      Service.createGPRCServer w
        { s with mu := true, cfg := { s.cfg with Workers := wk },
                 rr := some (roadrunner.NewServer wk) } = .ok srv →
      w.Start = some e →
      s.Serve w = .returned (some e)
        { s with mu := false, cfg := { s.cfg with Workers := wk },
                 rr := some (roadrunner.NewServer wk), grpc := some srv }
        [Effect.bound lis, Effect.rrListen, Effect.rrStart]) := by
  refine ⟨?_, ?_, ?_, ?_⟩
  · intro e hl
    rw [Serve_eq w s hmu, hl]
  · intro lis env e hl he hg
    have hm : s.mergedWorkers w = .error e := by simp [Service.mergedWorkers, he, hg]
    rw [Serve_eq w s hmu, hl]
    simp only [hm]
  · intro lis wk e hl hm hfail
    rw [Serve_eq w s hmu, hl]
    simp only [hm, createGPRCServer_prepared_error w s wk e hfail]
    rfl
  · intro lis wk srv e hl hm hsrv hs
    have hsrv2 : (s.prepared wk).createGPRCServer w = .ok srv := hsrv
    rw [Serve_eq w s hmu, hl]
    simp only [hm, hsrv2, hs]
    rfl

/-- C4 amended, at a failing listener, a failing provider, a missing
certificate and a worker pool that does not start. -/
theorem Serve_failure_state_witness :
    listenFailService.Serve sampleWorld
      = .returned (some "listen tcp :9001: bind: address already in use")
          { listenFailService with mu := true } []
    ∧ envFailService.Serve sampleWorld
      = .returned (some "env: provider unavailable") { envFailService with mu := true }
          [Effect.bound { addr := "tcp://:9001" }]
    ∧ tlsService.Serve tlsFailWorld
      = .returned (some "open missing.crt: no such file or directory")
          { tlsService with mu := true, cfg := { tlsService.cfg with Workers := { env := [] } },
                            rr := some (roadrunner.NewServer { env := [] }), grpc := none }
          [Effect.bound { addr := "tcp://:9001" }, Effect.rrListen]
    ∧ sampleService.Serve startFailWorld
      = .returned (some "unable to start worker pool")
          { sampleService with mu := false,
                               cfg := { sampleService.cfg with Workers := { env := [] } },
                               rr := some (roadrunner.NewServer { env := [] }),
                               grpc := some sampleServer }
          [Effect.bound { addr := "tcp://:9001" }, Effect.rrListen, Effect.rrStart] :=
  ⟨(Serve_failure_state sampleWorld listenFailService rfl).1 _ rfl,
   (Serve_failure_state sampleWorld envFailService rfl).2.1 _ _ _ rfl rfl rfl,
   (Serve_failure_state tlsFailWorld tlsService rfl).2.2.1 _ _ _ rfl rfl (Or.inl rfl),
   (Serve_failure_state startFailWorld sampleService rfl).2.2.2 _ _ sampleServer _
      rfl rfl rfl rfl⟩

/-- C5 on the code: `Serve` returns from a listener failure, from a provider
failure and from a proto parse failure with the mutex still held, and a
`Stop` called after any of these returns waits on that mutex for ever; on the
path that reaches the accept loop the mutex is free. -/
theorem Serve_error_paths_keep_mutex :
    listenFailService.Serve sampleWorld
      = .returned (some "listen tcp :9001: bind: address already in use")
          { listenFailService with mu := true } []
    ∧ (listenFailService.Serve sampleWorld).state.Stop.isReturned = false
    ∧ (envFailService.Serve sampleWorld).isReturned = true
    ∧ (envFailService.Serve sampleWorld).state.mu = true
    ∧ (envFailService.Serve sampleWorld).state.Stop.isReturned = false
    ∧ (sampleService.Serve parseFailWorld).isReturned = true
    ∧ (sampleService.Serve parseFailWorld).state.mu = true
    ∧ (sampleService.Serve parseFailWorld).state.Stop.isReturned = false
    ∧ (sampleService.Serve sampleWorld).isReturned = true
    ∧ (sampleService.Serve sampleWorld).state.mu = false
    ∧ (sampleService.Serve sampleWorld).state.Stop.isReturned = true := by
  refine ⟨rfl, rfl, rfl, rfl, rfl, rfl, rfl, rfl, rfl, rfl, rfl⟩

/-- C6, as stated, fails: TLS is enabled and the certificate cannot be read;
`Serve` returns that error, and the listener it had bound before is still
open: nothing closed it. -/
theorem Serve_tls_failure_listener_open :
    tlsService.cfg.EnableTLS = true
    ∧ tlsFailWorld.NewServerTLSFromFile tlsService.cfg.TLS.Cert tlsService.cfg.TLS.Key
        = .error "open missing.crt: no such file or directory"
    ∧ (tlsService.Serve tlsFailWorld).isReturned = true
    ∧ (tlsService.Serve tlsFailWorld).trace
        = [Effect.bound { addr := "tcp://:9001" }, Effect.rrListen]
    ∧ leftOpen (tlsService.Serve tlsFailWorld).trace { addr := "tcp://:9001" } := by
  refine ⟨rfl, rfl, rfl, rfl, ?_⟩
  have h : (tlsService.Serve tlsFailWorld).trace
      = [Effect.bound { addr := "tcp://:9001" }, Effect.rrListen] := rfl
  rw [h]
  simp [leftOpen]

/-- C6, amended: TLS is enabled, the credentials cannot be loaded and the
mutex is free.  The listener is resolved first: when that fails `Serve`
returns the listener error and nothing was bound; when the environment
lookup fails `Serve` returns that error; otherwise `Serve` returns the
credential-load error.  In the last two cases the listener was bound and
`Serve` returns without closing it. -/
theorem Serve_tls_failure (w : World) (s : Service) (e : Error) (hmu : s.mu = false)
    (htls : s.cfg.EnableTLS = true)
    (hload : w.NewServerTLSFromFile s.cfg.TLS.Cert s.cfg.TLS.Key = .error e) :
    match s.cfg.Listener with
    | .error e0 => s.Serve w = .returned (some e0) { s with mu := true } []
    | .ok lis =>
      leftOpen (s.Serve w).trace lis ∧
      match s.mergedWorkers w with
      | .error e1 => s.Serve w = .returned (some e1) { s with mu := true } [Effect.bound lis]
      | .ok wk =>
        s.Serve w = .returned (some e)
          { s with mu := true, cfg := { s.cfg with Workers := wk },
                   rr := some (roadrunner.NewServer wk), grpc := none }
          [Effect.bound lis, Effect.rrListen] := by
  have hopts := serverOptions_tls_error w s e htls hload
  cases hl : s.cfg.Listener with
  | error e0 =>
    simp only
    rw [Serve_eq w s hmu, hl]
  | ok lis =>
    simp only
    cases hm : s.mergedWorkers w with
    | error e1 =>
      have h : s.Serve w = .returned (some e1) { s with mu := true } [Effect.bound lis] := by
        rw [Serve_eq w s hmu, hl]
        simp only [hm]
      simp [h, leftOpen, Outcome.trace]
    | ok wk =>
      have h : s.Serve w = .returned (some e)
          { s with mu := true, cfg := { s.cfg with Workers := wk },
                   rr := some (roadrunner.NewServer wk), grpc := none }
          [Effect.bound lis, Effect.rrListen] := by
        rw [Serve_eq w s hmu, hl]
        simp only [hm, createGPRCServer_prepared_error w s wk e (Or.inl hopts)]
        rfl
      simp [h, leftOpen, Outcome.trace]

/-- C6 amended, at a missing certificate file. -/
theorem Serve_tls_failure_witness :
    leftOpen (tlsService.Serve tlsFailWorld).trace { addr := "tcp://:9001" }
    ∧ tlsService.Serve tlsFailWorld
      = .returned (some "open missing.crt: no such file or directory")
          { tlsService with mu := true, cfg := { tlsService.cfg with Workers := { env := [] } },
                            rr := some (roadrunner.NewServer { env := [] }), grpc := none }
          [Effect.bound { addr := "tcp://:9001" }, Effect.rrListen] :=
  Serve_tls_failure tlsFailWorld tlsService "open missing.crt: no such file or directory"
    rfl rfl rfl

theorem Serve_returned_after_accept (w : World) (s : Service) (r : Option Error) (s1 : Service)
    (tr : List Effect) (srv : GrpcServer) (lis : NetListener)
    (h : s.Serve w = .returned r s1 tr) (hacc : Effect.grpcServe srv lis ∈ tr) :
    s1.grpc = some srv ∧ s1.mu = false := by
  have hmu : s.mu = false := by
    cases hm : s.mu with
    | false => rfl
    | true => simp [Service.Serve, hm] at h
  rw [Serve_eq w s hmu] at h
  cases hl : s.cfg.Listener with
  | error e0 =>
    rw [hl] at h
    simp only [Outcome.returned.injEq] at h
    obtain ⟨_, _, rfl⟩ := h
    simp at hacc
  | ok lis0 =>
    rw [hl] at h
    simp only at h
    cases hm : s.mergedWorkers w with
    | error e1 =>
      rw [hm] at h
      simp only [Outcome.returned.injEq] at h
      obtain ⟨_, _, rfl⟩ := h
      simp at hacc
    | ok wk =>
      rw [hm] at h
      simp only at h
      cases hc : (s.prepared wk).createGPRCServer w with
      | error e2 =>
        rw [hc] at h
        simp only [Outcome.returned.injEq] at h
        obtain ⟨_, _, rfl⟩ := h
        simp at hacc
      | exited srv0 r0 =>
        rw [hc] at h
        simp at h
      | ok srv0 =>
        rw [hc] at h
        simp only at h
        cases hs : w.Start with
        | some e3 =>
          rw [hs] at h
          simp only [Outcome.returned.injEq] at h
          obtain ⟨_, _, rfl⟩ := h
          simp at hacc
        | none =>
          rw [hs] at h
          simp only at h
          cases hv : w.Serve with
          | none =>
            rw [hv] at h
            simp at h
          | some r0 =>
            rw [hv] at h
            simp only [Outcome.returned.injEq] at h
            obtain ⟨_, rfl, rfl⟩ := h
            simp at hacc
            obtain ⟨rfl, _⟩ := hacc
            exact ⟨rfl, rfl⟩

/-- C9, as stated, fails: `Serve` built a server, the accept loop returned and
`Serve` returned; the `grpc` field is not nil, and a later `Stop` requests a
graceful stop once more. -/
theorem Serve_returned_keeps_handle :
    (sampleService.Serve sampleWorld).isReturned = true
    ∧ (sampleService.Serve sampleWorld).trace.length = 6
    ∧ (sampleService.Serve sampleWorld).state.grpc ≠ none
    ∧ (sampleService.Serve sampleWorld).state.Stop.trace.length = 1 := by
  refine ⟨rfl, rfl, ?_, rfl⟩
  intro h
  have h2 : (sampleService.Serve sampleWorld).state.grpc.isSome = true := rfl
  rw [h] at h2
  exact Bool.noConfusion h2

/-- C9, amended: when `Serve` has returned after the accept loop on server
`srv`, the `grpc` field still holds `srv` (nothing sets it back to nil after
the accept loop) and the mutex is free, so a later `Stop` returns after
requesting a graceful stop of `srv` again, and leaves the handle in place. -/
theorem Serve_returned_handle_kept (w : World) (s : Service) (r : Option Error) (s1 : Service)
    (tr : List Effect) (srv : GrpcServer) (lis : NetListener)
    (h : s.Serve w = .returned r s1 tr) (hacc : Effect.grpcServe srv lis ∈ tr) :
    s1.grpc = some srv ∧ s1.Stop = .returned () s1 [Effect.gracefulStop srv] := by
  obtain ⟨hg, hmu⟩ := Serve_returned_after_accept w s r s1 tr srv lis h hacc
  refine ⟨hg, ?_⟩
  rcases s1 with ⟨cfg, env, list, opts, services, mu, rr, grpc⟩
  simp only at hg hmu
  subst hg hmu
  rfl

/-- C9 amended, at a run in which every step succeeds and the accept loop ends. -/
theorem Serve_returned_handle_kept_witness :
    (sampleService.Serve sampleWorld).state.grpc = some sampleServer
    ∧ (sampleService.Serve sampleWorld).state.Stop
        = .returned () (sampleService.Serve sampleWorld).state [Effect.gracefulStop sampleServer] :=
  Serve_returned_handle_kept sampleWorld sampleService none
    (sampleService.Serve sampleWorld).state (sampleService.Serve sampleWorld).trace
    sampleServer { addr := "tcp://:9001" } rfl
    (List.mem_cons_of_mem _ (List.mem_cons_of_mem _ (List.mem_cons_of_mem _
      (List.mem_cons_self _ _))))

theorem takeWhile_ne_append (l r : List Char) (h : '=' ∉ l) :
    (l ++ '=' :: r).takeWhile (fun c => c != '=') = l := by
  induction l with
  | nil => simp [List.takeWhile]
  | cons a l ih =>
    have ha : a ≠ '=' := fun hc => h (hc ▸ List.mem_cons_self _ _)
    have hl : '=' ∉ l := fun hc => h (List.mem_cons_of_mem _ hc)
    have hb : (a != '=') = true := by simpa using ha
    rw [List.cons_append, List.takeWhile_cons, hb, if_pos rfl, ih hl]

theorem dropWhile_ne_append (l r : List Char) (h : '=' ∉ l) :
    (l ++ '=' :: r).dropWhile (fun c => c != '=') = '=' :: r := by
  induction l with
  | nil => simp [List.dropWhile]
  | cons a l ih =>
    have ha : a ≠ '=' := fun hc => h (hc ▸ List.mem_cons_self _ _)
    have hl : '=' ∉ l := fun hc => h (List.mem_cons_of_mem _ hc)
    have hb : (a != '=') = true := by simpa using ha
    rw [List.cons_append, List.dropWhile_cons, hb, if_pos rfl, ih hl]

theorem entrySplit_entry (name v : String) (h : '=' ∉ name.data) :
    entrySplit (name ++ "=" ++ v) = some (name, v) := by
  have hd : (name ++ "=" ++ v).data = name.data ++ '=' :: v.data := by
    rw [String.data_append, String.data_append]
    simp
  unfold entrySplit
  rw [hd, takeWhile_ne_append _ _ h, dropWhile_ne_append _ _ h]
  simp

theorem entryValue_entry (name v : String) (h : '=' ∉ name.data) :
    entryValue name (name ++ "=" ++ v) = some v := by
  simp [entryValue, entrySplit_entry name v h]

theorem entryValue_marker (name : String) :
    entryValue name "RR_GRPC=true" = if "RR_GRPC" = name then some "true" else none := by
  have h : entrySplit "RR_GRPC=true" = some ("RR_GRPC", "true") := by decide
  simp [entryValue, h]

theorem findSome_unique {β : Type} (f : String → Option β) (l rest : List String) (x : String)
    (b : β) (hx : x ∈ l) (hfx : f x = some b) (huniq : ∀ y ∈ l, (f y).isSome → y = x) :
    (l ++ rest).findSome? f = some b := by
  induction l with
  | nil => simp at hx
  | cons y l ih =>
    rw [List.cons_append, List.findSome?_cons]
    cases hfy : f y with
    | some c =>
      have hyx : y = x := huniq y (List.mem_cons_self _ _) (by simp [hfy])
      rw [hyx, hfx] at hfy
      simp only
      exact hfy.symm
    | none =>
      simp only
      have hne : x ≠ y := by
        intro hxy
        rw [hxy, hfy] at hfx
        exact Option.noConfusion hfx
      have hxl : x ∈ l := by
        rcases List.mem_cons.mp hx with h | h
        · exact absurd h hne
        · exact h
      exact ih hxl (fun z hz => huniq z (List.mem_cons_of_mem _ hz))

theorem lookup_marker (old mid : List String) :
    ServerConfig.lookup { env := old ++ mid ++ ["RR_GRPC=true"] } "RR_GRPC" = some "true" := by
  simp [ServerConfig.lookup, List.findSome?_cons, entryValue_marker]

theorem lookup_supplied (U : String → String) (old : List String)
    (values : List (String × String)) (k v : String)
    (hmem : (k, v) ∈ values) (heq : '=' ∉ (U k).data) (hk : U k ≠ "RR_GRPC")
    (huniq : ∀ k2 v2, (k2, v2) ∈ values →
      (entryValue (U k) (U k2 ++ "=" ++ v2)).isSome → (k2, v2) = (k, v)) :
    ServerConfig.lookup
      { env := old ++ values.map (fun kv => U kv.1 ++ "=" ++ kv.2) ++ ["RR_GRPC=true"] } (U k)
      = some v := by
  have hmark : entryValue (U k) "RR_GRPC=true" = none := by
    rw [entryValue_marker]
    exact if_neg (fun h : "RR_GRPC" = U k => hk h.symm)
  have hfind := findSome_unique (entryValue (U k))
    (values.map (fun kv => U kv.1 ++ "=" ++ kv.2)).reverse old.reverse (U k ++ "=" ++ v) v
    (List.mem_reverse.mpr (List.mem_map.mpr ⟨(k, v), hmem, rfl⟩))
    (entryValue_entry (U k) v heq)
    (by
      intro y hy hsome
      obtain ⟨⟨k2, v2⟩, hin, rfl⟩ := List.mem_map.mp (List.mem_reverse.mp hy)
      have h2 := huniq k2 v2 hin hsome
      rw [Prod.mk.injEq] at h2
      rw [h2.1, h2.2])
  simp only [ServerConfig.lookup, List.reverse_append, List.reverse_cons, List.reverse_nil,
    List.nil_append, List.singleton_append, List.findSome?_cons, hmark]
  exact hfind

theorem Serve_state_workers (w : World) (s : Service) (lis : NetListener) (wk : ServerConfig)
    (hmu : s.mu = false) (hl : s.cfg.Listener = .ok lis) (hm : s.mergedWorkers w = .ok wk) :
    (s.Serve w).state.rr = some (roadrunner.NewServer wk)
    ∧ (s.Serve w).state.cfg.Workers = wk := by
  rw [Serve_eq w s hmu, hl]
  simp only [hm]
  cases (s.prepared wk).createGPRCServer w with
  | error e => exact ⟨rfl, rfl⟩
  | exited srv r => exact ⟨rfl, rfl⟩
  | ok srv =>
    cases w.Start with
    | some e => exact ⟨rfl, rfl⟩
    | none =>
      cases w.Serve with
      | none => exact ⟨rfl, rfl⟩
      | some r => exact ⟨rfl, rfl⟩

/-- C10, as stated, fails.  With no environment provider `Serve` builds the
worker pool from a configuration in which `RR_GRPC` is not set.  And with a
provider that supplies `app_env=prod`, the variable `app_env` is not set in
the configuration the pool is built from: `SetEnv` wrote `APP_ENV`. -/
theorem Serve_marker_and_pairs_fail :
    sampleService.env = none
    ∧ (sampleService.Serve sampleWorld).state.rr = some (roadrunner.NewServer { env := [] })
    ∧ (roadrunner.NewServer { env := [] }).cfg.lookup "RR_GRPC" = none
    ∧ (envService.Serve sampleWorld).state.rr
        = some (roadrunner.NewServer
            { env := ["APP_ENV=dev", "APP_ENV=prod", "RR_GRPC=false", "RR_GRPC=true"] })
    ∧ ServerConfig.lookup
        { env := ["APP_ENV=dev", "APP_ENV=prod", "RR_GRPC=false", "RR_GRPC=true"] } "app_env"
        = none := by
  refine ⟨rfl, rfl, rfl, ?_, ?_⟩
  · have hm : envService.mergedWorkers sampleWorld
        = .ok { env := ["APP_ENV=dev", "APP_ENV=prod", "RR_GRPC=false", "RR_GRPC=true"] } := by
      have hu : ["APP_ENV=dev"] ++ [asciiUpper "app_env" ++ "=" ++ "prod",
          asciiUpper "RR_GRPC" ++ "=" ++ "false"] ++ [asciiUpper "RR_GRPC" ++ "=" ++ "true"]
          = ["APP_ENV=dev", "APP_ENV=prod", "RR_GRPC=false", "RR_GRPC=true"] := by decide
      exact congrArg (fun l => Except.ok ({ env := l } : ServerConfig)) hu
    exact (Serve_state_workers sampleWorld envService _ _ rfl rfl hm).1
  · decide

/-- C10, amended, for a service whose mutex is free and whose listener is
resolved, so that `Serve` gets to the worker pool.  With no provider `Serve`
makes no `SetEnv` call and the pool is built from the worker configuration
as it was.  With a provider whose lookup succeeds, the pool is built from
the old entries, then one entry per provider pair with the key upper-cased,
then the entry `RR_GRPC=true`, written last; in it `RR_GRPC` has the value
"true", whatever the provider supplies, and for every provider pair `(k, v)`
the variable named by the upper-cased `k` has the value `v`, provided that
name contains no `=`, is not `RR_GRPC`, and no other provider pair sets the
same variable. -/
theorem Serve_with_provider_sets_marker (w : World) (s : Service) (lis : NetListener)
    (hmu : s.mu = false) (hl : s.cfg.Listener = .ok lis) :
    (s.env = none → (s.Serve w).state.rr = some (roadrunner.NewServer s.cfg.Workers))
    ∧ (∀ env values, s.env = some env → env.GetEnv = .ok values →
        w.ToUpper "RR_GRPC" = "RR_GRPC" →
        ∃ r, (s.Serve w).state.rr = some r
          ∧ r.cfg.env = s.cfg.Workers.env
              ++ values.entries.map (fun kv => w.ToUpper kv.1 ++ "=" ++ kv.2)
              ++ ["RR_GRPC=true"]
          ∧ r.cfg.lookup "RR_GRPC" = some "true"
          ∧ ∀ k v, (k, v) ∈ values.entries → '=' ∉ (w.ToUpper k).data →
              w.ToUpper k ≠ "RR_GRPC" →
              (∀ k2 v2, (k2, v2) ∈ values.entries →
                (entryValue (w.ToUpper k) (w.ToUpper k2 ++ "=" ++ v2)).isSome →
                (k2, v2) = (k, v)) →
              r.cfg.lookup (w.ToUpper k) = some v) := by
  refine ⟨?_, ?_⟩
  · intro he
    have hm : s.mergedWorkers w = .ok s.cfg.Workers := by simp [Service.mergedWorkers, he]
    exact (Serve_state_workers w s lis _ hmu hl hm).1
  · intro env values he hg hU
    have hmark : ("RR_GRPC" ++ "=" ++ "true" : String) = "RR_GRPC=true" := by decide
    have hm : s.mergedWorkers w
        = .ok { env := s.cfg.Workers.env
                  ++ values.entries.map (fun kv => w.ToUpper kv.1 ++ "=" ++ kv.2)
                  ++ ["RR_GRPC=true"] } := by
      simp [Service.mergedWorkers, he, hg, hU, hmark]
    refine ⟨_, (Serve_state_workers w s lis _ hmu hl hm).1, rfl, ?_, ?_⟩
    · exact lookup_marker _ _
    · intro k v hmem heq hk huniq
      exact lookup_supplied w.ToUpper _ _ k v hmem heq hk huniq

/-- C10 amended, at a service without provider, and at a provider that
supplies `app_env=prod` and `RR_GRPC=false` on top of a configuration that
had `APP_ENV=dev`. -/
theorem Serve_with_provider_sets_marker_witness :
    (sampleService.Serve sampleWorld).state.rr
      = some (roadrunner.NewServer sampleService.cfg.Workers)
    ∧ ∃ r, (envService.Serve sampleWorld).state.rr = some r
      ∧ r.cfg.env = ["APP_ENV=dev"] ++ ["APP_ENV=prod", "RR_GRPC=false"] ++ ["RR_GRPC=true"]
      ∧ r.cfg.lookup "RR_GRPC" = some "true"
      ∧ ∀ k v, (k, v) ∈ [("app_env", "prod"), ("RR_GRPC", "false")] →
          '=' ∉ (asciiUpper k).data → asciiUpper k ≠ "RR_GRPC" →
          (∀ k2 v2, (k2, v2) ∈ [("app_env", "prod"), ("RR_GRPC", "false")] →
            (entryValue (asciiUpper k) (asciiUpper k2 ++ "=" ++ v2)).isSome →
            (k2, v2) = (k, v)) →
          r.cfg.lookup (asciiUpper k) = some v :=
  ⟨(Serve_with_provider_sets_marker sampleWorld sampleService { addr := "tcp://:9001" }
      rfl rfl).1 rfl,
   (Serve_with_provider_sets_marker sampleWorld envService { addr := "tcp://:9001" }
      rfl rfl).2 sampleEnv
      { entries := [("app_env", "prod"), ("RR_GRPC", "false")], nodup := by decide }
      rfl rfl rfl⟩

/-! ## Claims about `RegisterService` -/

/-- C7, as stated, fails: for a nil handler `RegisterService` neither returns
an error nor appends: `reflect.TypeOf(nil)` is nil and the call of
`Implements` on it panics. -/
theorem RegisterService_nil_handler_panics :
    sampleService.RegisterService healthDesc none = .panicked sampleService []
    ∧ (sampleService.RegisterService healthDesc none).isReturned = false := by
  refine ⟨rfl, rfl⟩

/-- C7, amended: for a descriptor whose `HandlerType` is a pointer to an
interface type and a handler `ss` that is not nil, `RegisterService` returns;
it returns an error if and only if the type of `ss` does not implement that
interface, and then the service is unchanged; otherwise it returns nil and
the service is the old one with the one entry `(sd, ss)` appended to the
external services and no other field changed. -/
theorem RegisterService_checks_handler (s : Service) (sd : ServiceDesc) (v : Value)
    (iname : String) (ims pms : List String) (ref : Nat)
    (hht : sd.HandlerType = some { typ := .ptr (.iface iname ims) pms, ref := ref }) :
    (s.RegisterService sd (some v)).isReturned = true
    ∧ ((∃ e s1 tr, s.RegisterService sd (some v) = .returned (some e) s1 tr)
        ↔ ¬ ∀ m ∈ ims, m ∈ v.typ.methodSet)
    ∧ (∀ e s1 tr, s.RegisterService sd (some v) = .returned (some e) s1 tr → s1 = s ∧ tr = [])
    ∧ (s.RegisterService sd (some v)
          = .returned none { s with services := s.services ++ [{ sd := sd, handler := some v }] } []
        ↔ ∀ m ∈ ims, m ∈ v.typ.methodSet) := by
  by_cases himpl : ∀ m ∈ ims, m ∈ v.typ.methodSet
  · have hall : (ims.all fun m => v.typ.methodSet.contains m) = true := by
      simpa [List.all_eq_true] using himpl
    have h : s.RegisterService sd (some v)
        = .returned none { s with services := s.services ++ [{ sd := sd, handler := some v }] } [] := by
      simp only [Service.RegisterService, reflect.TypeOf, hht, Option.map, GoType.Elem,
        GoType.Implements, hall]
    refine ⟨by rw [h]; rfl, ?_, ?_, ?_⟩
    · rw [h]
      constructor
      · rintro ⟨e, s1, tr, he⟩
        simp at he
      · intro hn
        exact absurd himpl hn
    · intro e s1 tr he
      rw [h] at he
      simp at he
    · rw [h]
      exact ⟨fun _ => himpl, fun _ => rfl⟩
  · have hall : (ims.all fun m => v.typ.methodSet.contains m) = false := by
      rw [Bool.eq_false_iff]
      intro hc
      apply himpl
      simpa [List.all_eq_true] using hc
    have h : s.RegisterService sd (some v)
        = .returned (some ("grpc: Server.RegisterService found the handler of type "
            ++ v.typ.format ++ " that does not satisfy " ++ iname)) s [] := by
      simp only [Service.RegisterService, reflect.TypeOf, hht, Option.map, GoType.Elem,
        GoType.Implements, hall, GoType.format]
    refine ⟨by rw [h]; rfl, ?_, ?_, ?_⟩
    · rw [h]; simp [himpl]
    · intro e s1 tr he
      rw [h] at he
      simp at he
      exact ⟨he.2.1.symm, he.2.2⟩
    · rw [h]
      constructor
      · intro he
        simp at he
      · intro hi
        exact absurd hi himpl

/-- C7 amended, at a handler that implements `HealthServer`. -/
theorem RegisterService_checks_handler_witness :
    (sampleService.RegisterService healthDesc (some healthImpl)).isReturned = true
    ∧ ((∃ e s1 tr, sampleService.RegisterService healthDesc (some healthImpl)
          = .returned (some e) s1 tr)
        ↔ ¬ ∀ m ∈ ["Check", "Watch"], m ∈ healthImpl.typ.methodSet)
    ∧ (∀ e s1 tr, sampleService.RegisterService healthDesc (some healthImpl)
          = .returned (some e) s1 tr → s1 = sampleService ∧ tr = [])
    ∧ (sampleService.RegisterService healthDesc (some healthImpl)
          = .returned none
              { sampleService with
                services := sampleService.services
                  ++ [{ sd := healthDesc, handler := some healthImpl }] } []
        ↔ ∀ m ∈ ["Check", "Watch"], m ∈ healthImpl.typ.methodSet) :=
  RegisterService_checks_handler sampleService healthDesc healthImpl "HealthServer"
    ["Check", "Watch"] [] 0 rfl

end GrpcService
